import Mathlib

/-!
# Verification of the gene-set collection model (`gsea_api.molecular_signatures_db`)

Shallow embedding of `GeneSet` / `GeneSets` from
`src/gsea_api/molecular_signatures_db.py`.

Modelling conventions:
* Python `frozenset[str]` is `Finset String`; iteration order of a frozenset
  (used when serializing genes) is modelled as the canonical byte-wise
  ascending order (`sortedOf`), a deterministic refinement of CPython's
  arbitrary hash-dependent order.
* A Python `set` of `GeneSet` objects deduplicates by `__eq__`/`__hash__`,
  which compare `(name, genes)` only; we model such a set as a list that keeps
  the first occurrence of each `(name, genes)` key (`pySetList`).
* `warnings.warn` calls are modelled as structured `Warning` events collected
  in emission order; the event payloads carry the data interpolated into the
  Python message strings.
* Python floats produced by `len(overlap) / len(genes)` are modelled as `ℚ`;
  the code only stores this quotient and compares it with the user-supplied
  threshold, so exact rational arithmetic is a faithful refinement.
* A raised exception (`ZeroDivisionError` in `subset`, the failed tuple
  unpacking in `from_gmt_line`, the failed `assert` in `gene_sets_by_name`)
  is modelled as `none` of an `Option` result.
* Tab-separated GMT lines are modelled at the level of their field lists
  (gene names and set names are assumed tab-free, as in the repository's
  data), so `'\t'.join`/`.split('\t')` become list cons/match.
-/

/-- Structured model of the `warnings.warn(...)` events emitted by
`molecular_signatures_db.py`; each constructor carries the data interpolated
into the corresponding Python f-string. -/
inductive Warning where
  /-- Models `GeneSet {name} is empty` -/
  | emptySet (name : String)
  /-- Models `GeneSet {name} received a non-unique collection of genes; redundant genes: {redundant}` -/
  | nonUniqueGenes (name : String) (redundant : List (String × Nat))
  /-- Models `... following gene sets are identical: {identical}`: each group's names and gene count. -/
  | redundantVerbatim (groups : List (List String × Nat))
  /-- Models `... there are {numGroups} gene sets having more than one name assigned, in total affecting {affected} gene sets` -/
  | redundantSummary (numGroups : Nat) (affected : Nat)
  /-- Models `{count} empty gene sets were removed.` -/
  | emptyRemoved (count : Nat)
  /-- Models `There are {count} empty gene sets: {message}`: names listed iff at most 5. -/
  | emptyKept (count : Nat) (names : Option (List String))
  /-- Models `Redundant collection of {groupSize} gene sets which includes {examples} ... exceeds the provided collapse_limit ({limit}) ...` -/
  | collapseLimitExceeded (groupSize : Nat) (examples : String) (limit : Nat)
  /-- Models `Collapsed {affected} redundant gene sets into {numGroups} non-redundant sets, concatenating their names with {sep}` -/
  | collapsedSummary (affected : Nat) (numGroups : Nat) (sep : String)
deriving DecidableEq, Repr

/-- Model of a `GeneSet` instance: the attributes set by `GeneSet.__init__`
(`metadata` is omitted: it is only touched by the XML-catalog code, which no
claim concerns). -/
structure GeneSet where
  name : String
  genes : Finset String
  description : Option String
  representativeness : Option ℚ
  /-- Models `redundant_genes`: multiplicity of each duplicated input gene, `none` when the input had no duplicates. -/
  redundant_genes : Option (List (String × Nat))
deriving DecidableEq

/-- Models `GeneSet.__init__(name, genes, description, warn_if_empty, representativeness)`:
deduplicates `genes` into a frozenset, warns if empty (unless suppressed), and
when the input had duplicates warns and records each duplicated gene's
multiplicity (`Counter(genes)` restricted to counts above 1, in first-occurrence
order). Returns the instance together with the warnings emitted. -/
def GeneSet.init (name : String) (genes : List String) (description : Option String)
    (warn_if_empty : Bool) (representativeness : Option ℚ) : GeneSet × List Warning :=
  let geneSet : Finset String := genes.toFinset
  let emptyWarnings : List Warning :=
    if warn_if_empty = true ∧ geneSet = ∅ then [Warning.emptySet name] else []
  let redundantGenes : Option (List (String × Nat)) :=
    if genes.length ≠ geneSet.card then
      some ((genes.dedup.filter (fun g => 1 < genes.count g)).map (fun g => (g, genes.count g)))
    else none
  let dupWarnings : List Warning :=
    match redundantGenes with
    | some m => [Warning.nonUniqueGenes name m]
    | none => []
  (⟨name, geneSet, description, representativeness, redundantGenes⟩,
    emptyWarnings ++ dupWarnings)

/-- The key by which Python's `GeneSet.__eq__`/`__hash__` compare instances:
`(name, genes)` only. -/
def GeneSet.key (gs : GeneSet) : String × Finset String := (gs.name, gs.genes)

/-!
A fixed enumeration order for `Finset String` (the model of iterating a
Python frozenset of strings, whose actual order is hash-dependent and
implementation-defined): the canonical byte-wise ascending order, computed by
a structurally recursive comparison so that concrete instances evaluate.
-/

/-- Byte-wise (code-point-wise) `≤` on character lists, structurally
recursive. -/
def charListLeB : List Char → List Char → Bool
  | [], _ => true
  | _ :: _, [] => false
  | a :: as, b :: bs =>
    if a.val.toNat < b.val.toNat then true
    else if b.val.toNat < a.val.toNat then false
    else charListLeB as bs

/-- The corresponding total order on strings. -/
def strLe (a b : String) : Prop := charListLeB a.data b.data = true

instance : DecidableRel strLe := fun a b => by unfold strLe; infer_instance

theorem charListLeB_total : ∀ l₁ l₂, charListLeB l₁ l₂ = true ∨ charListLeB l₂ l₁ = true
  | [], _ => Or.inl rfl
  | _ :: _, [] => Or.inr rfl
  | a :: as, b :: bs => by
    unfold charListLeB
    rcases Nat.lt_trichotomy a.val.toNat b.val.toNat with h | h | h
    · left; simp [h]
    · have hn : ¬ a.val.toNat < b.val.toNat := by omega
      have hn' : ¬ b.val.toNat < a.val.toNat := by omega
      rcases charListLeB_total as bs with ht | ht
      · left; simp [hn, hn', ht]
      · right; simp [hn, hn', ht]
    · right; simp [h]

theorem charListLeB_antisymm :
    ∀ l₁ l₂, charListLeB l₁ l₂ = true → charListLeB l₂ l₁ = true → l₁ = l₂
  | [], [], _, _ => rfl
  | [], _ :: _, _, h => by simp [charListLeB] at h
  | _ :: _, [], h, _ => by simp [charListLeB] at h
  | a :: as, b :: bs, h₁, h₂ => by
    unfold charListLeB at h₁ h₂
    rcases Nat.lt_trichotomy a.val.toNat b.val.toNat with h | h | h
    · have hn : ¬ b.val.toNat < a.val.toNat := by omega
      simp [h, hn] at h₂
    · have hn : ¬ a.val.toNat < b.val.toNat := by omega
      have hn' : ¬ b.val.toNat < a.val.toNat := by omega
      simp [hn, hn'] at h₁ h₂
      rw [Char.ext (UInt32.ext h), charListLeB_antisymm as bs h₁ h₂]
    · have hn : ¬ a.val.toNat < b.val.toNat := by omega
      simp [h, hn] at h₁

theorem charListLeB_trans :
    ∀ l₁ l₂ l₃, charListLeB l₁ l₂ = true → charListLeB l₂ l₃ = true →
      charListLeB l₁ l₃ = true
  | [], _, _, _, _ => rfl
  | _ :: _, [], _, h, _ => by simp [charListLeB] at h
  | _ :: _, _ :: _, [], _, h => by simp [charListLeB] at h
  | a :: as, b :: bs, c :: cs, h₁, h₂ => by
    unfold charListLeB at h₁ h₂ ⊢
    by_cases hba : b.val.toNat < a.val.toNat
    · have hn : ¬ a.val.toNat < b.val.toNat := by omega
      simp [hn, hba] at h₁
    · by_cases hcb : c.val.toNat < b.val.toNat
      · have hn : ¬ b.val.toNat < c.val.toNat := by omega
        simp [hn, hcb] at h₂
      · by_cases hab : a.val.toNat < b.val.toNat
        · have hac : a.val.toNat < c.val.toNat := by omega
          simp [hac]
        · by_cases hbc : b.val.toNat < c.val.toNat
          · have hac : a.val.toNat < c.val.toNat := by omega
            simp [hac]
          · have h1' : charListLeB as bs = true := by simpa [hab, hba] using h₁
            have h2' : charListLeB bs cs = true := by simpa [hbc, hcb] using h₂
            have hacn : ¬ a.val.toNat < c.val.toNat := by omega
            have hcan : ¬ c.val.toNat < a.val.toNat := by omega
            simp [hacn, hcan]
            exact charListLeB_trans as bs cs h1' h2'

instance : IsTotal String strLe := ⟨fun a b => charListLeB_total a.data b.data⟩

instance : IsTrans String strLe := ⟨fun a b c => charListLeB_trans a.data b.data c.data⟩

instance : IsAntisymm String strLe :=
  ⟨fun a b h₁ h₂ => by
    have h := charListLeB_antisymm a.data b.data h₁ h₂
    cases a; cases b
    exact congrArg String.mk h⟩

/-- The canonical ascending enumeration of a multiset of strings (insertion
sort of any representative list; well-defined because sorting a permutation
yields the same sorted list). -/
def msortedOf (m : Multiset String) : List String :=
  Quot.lift (fun l : List String => l.insertionSort strLe)
    (fun l₁ l₂ h =>
      List.eq_of_perm_of_sorted
        (((l₁.perm_insertionSort strLe).trans h).trans
          (l₂.perm_insertionSort strLe).symm)
        (List.sorted_insertionSort strLe l₁)
        (List.sorted_insertionSort strLe l₂)) m

/-- The model of iterating a frozenset of strings: its elements in the fixed
canonical order. -/
def sortedOf (s : Finset String) : List String := msortedOf s.val

theorem msortedOf_coe (m : Multiset String) : (msortedOf m : Multiset String) = m :=
  Quotient.inductionOn m (fun l => Quot.sound (l.perm_insertionSort strLe))

theorem mem_sortedOf {x : String} {s : Finset String} : x ∈ sortedOf s ↔ x ∈ s := by
  constructor
  · intro h
    have hx : x ∈ (msortedOf s.val : Multiset String) := by exact_mod_cast h
    rw [msortedOf_coe] at hx
    exact hx
  · intro h
    have hx : x ∈ s.val := h
    rw [← msortedOf_coe s.val] at hx
    exact_mod_cast hx

theorem sortedOf_nodup (s : Finset String) : (sortedOf s).Nodup := by
  have h : ((sortedOf s : List String) : Multiset String).Nodup := by
    unfold sortedOf
    rw [msortedOf_coe]; exact s.nodup
  exact_mod_cast h

theorem sortedOf_toFinset (s : Finset String) : (sortedOf s).toFinset = s := by
  ext x
  rw [List.mem_toFinset]
  exact mem_sortedOf

theorem length_sortedOf (s : Finset String) : (sortedOf s).length = s.card := by
  have h : Multiset.card ((sortedOf s : List String) : Multiset String) =
      Multiset.card s.val := by
    unfold sortedOf
    rw [msortedOf_coe]
  simpa using h

/-- Models `is_empty` property. -/
def GeneSet.is_empty (gs : GeneSet) : Prop := gs.genes = ∅

instance (gs : GeneSet) : Decidable gs.is_empty := by
  unfold GeneSet.is_empty; infer_instance

/-- Model of building a Python `set` from a list of `GeneSet`s: keep the first
occurrence of each `(name, genes)` key (deterministic refinement of the
arbitrary set iteration order). -/
def pySetList : List GeneSet → List GeneSet
  | [] => []
  | gs :: rest => gs :: (pySetList rest).filter (fun x => x.key ≠ gs.key)

/-- Model of Python set difference `set(l) - set(remove)` on `GeneSet`s
(membership decided by the `(name, genes)` key). -/
def pyDiffList (l remove : List GeneSet) : List GeneSet :=
  l.filter (fun gs => ¬ remove.any (fun x => x.key == gs.key))

/-- Models `GeneSets.group_identical` (with the default `key='name'`): group the sets
by identical gene content, in first-occurrence order (Python's `defaultdict`
preserves insertion order), collecting the names of each group in order. -/
def groupIdentical (sets : List GeneSet) : List (Finset String × List String) :=
  sets.foldl
    (fun acc gs =>
      if acc.any (fun p => p.1 == gs.genes) then
        acc.map (fun p => if p.1 = gs.genes then (p.1, p.2 ++ [gs.name]) else p)
      else acc ++ [(gs.genes, [gs.name])])
    []

/-- Models `GeneSets.find_redundant` (defaults `key='name'`, `min_duplicates=1`):
the groups of `group_identical` with more than one member. -/
def findRedundant (sets : List GeneSet) : List (Finset String × List String) :=
  (groupIdentical sets).filter (fun p => 1 < p.2.length)

/-- Models `redundant_gene_sets_n = len(sum(redundant.values(), []))`: the total
number of gene sets belonging to some redundant group. -/
def affectedCount (sets : List GeneSet) : Nat :=
  ((findRedundant sets).map (fun q => q.2.length)).sum

/-- Models `any(redundant)` (used at both the warning and the collapse
guards): Python's `any()` over a dict iterates its keys — here frozensets of
gene content — and tests their truthiness, and `bool(frozenset())` is
`False`. So the guard holds iff some redundant group has non-empty gene
content; redundancy only among empty gene sets does not trigger it. -/
def anyRedundant (sets : List GeneSet) : Bool :=
  (findRedundant sets).any (fun q => q.1 != ∅)

/-- Python truthiness of the `collapse_redundant: Union[str, bool]` argument,
restricted to the values the claims concern (`False` ↦ `none`, a string `s` ↦
`some s`): truthy iff a non-empty string. -/
def truthyStr : Option String → Bool
  | none => false
  | some s => s ≠ ""

/-- The redundancy warning of `GeneSets.__init__` (step guarded by
`not allow_redundant`, `any(redundant)` and `not collapse_redundant`): verbatim
listing when at most 3 gene sets are affected, a count-only summary otherwise. -/
def redundancyWarnings (sets : List GeneSet) (allow_redundant : Bool)
    (collapse_redundant : Option String) : List Warning :=
  if ¬allow_redundant = true ∧ anyRedundant sets = true ∧ truthyStr collapse_redundant = false then
    if 3 < affectedCount sets then
      [Warning.redundantSummary (findRedundant sets).length (affectedCount sets)]
    else
      [Warning.redundantVerbatim ((findRedundant sets).map (fun q => (q.2, q.1.card)))]
  else []

/-- Models `empty_gene_sets = {gene_set for gene_set in gene_sets if gene_set.is_empty}`. -/
def pyEmptyGeneSets (gene_sets : List GeneSet) : List GeneSet :=
  pySetList (gene_sets.filter (fun gs => gs.genes == ∅))

/-- The gene-set list after the empty-set handling step of `GeneSets.__init__`:
when empty sets exist and `remove_empty` is set, `set(gene_sets) - empty_gene_sets`;
otherwise the input is left as is. -/
def emptyHandledSets (gene_sets : List GeneSet) (remove_empty : Bool) : List GeneSet :=
  if (pyEmptyGeneSets gene_sets).length ≠ 0 ∧ remove_empty = true then
    pyDiffList (pySetList gene_sets) (pyEmptyGeneSets gene_sets)
  else gene_sets

/-- The warnings of the empty-set handling step of `GeneSets.__init__`. -/
def emptyHandlingWarnings (gene_sets : List GeneSet) (remove_empty : Bool) : List Warning :=
  if (pyEmptyGeneSets gene_sets).length ≠ 0 then
    if remove_empty = true then
      [Warning.emptyRemoved (pyEmptyGeneSets gene_sets).length]
    else
      [Warning.emptyKept (pyEmptyGeneSets gene_sets).length
        (if (pyEmptyGeneSets gene_sets).length ≤ 5 then
          some ((pyEmptyGeneSets gene_sets).map (fun gs => gs.name))
        else none)]
  else []

/-- The name of a collapsed gene set:
`collapse_redundant.join(names[:collapse_limit])` plus the
`'{sep}... {len(names) - collapse_limit} more'` suffix when the group exceeds
`collapse_limit`. -/
def collapseName (sep : String) (lim : Nat) (names : List String) : String :=
  String.intercalate sep (names.take lim) ++
    (if lim < names.length then sep ++ "... " ++ toString (names.length - lim) ++ " more" else "")

/-- The synthetic gene sets of the collapse step (with the warnings emitted by
their nested `GeneSet(...)` constructions): one per redundant group, carrying
the shared genes, the (possibly truncated) joined name and the untruncated
joined description. -/
def collapsedGeneSets (sets : List GeneSet) (sep : String) (lim : Nat) :
    List (GeneSet × List Warning) :=
  (findRedundant sets).map (fun q =>
    GeneSet.init (collapseName sep lim q.2) (sortedOf q.1)
      (some (String.intercalate sep q.2)) true none)

/-- The `collapse_limit` warnings emitted before building the collapsed sets. -/
def collapseLimitWarnings (sets : List GeneSet) (lim : Nat) : List Warning :=
  ((findRedundant sets).filter (fun q => lim < q.2.length)).map
    (fun q => Warning.collapseLimitExceeded q.2.length (String.intercalate "," (q.2.take 3)) lim)

/-- Model of a `GeneSets` instance: the attributes set by `GeneSets.__init__`. -/
structure GeneSetsData where
  gene_sets : List GeneSet
  name : String
  path : Option String
  redundant : List (Finset String × List String)
  empty_gene_sets : List GeneSet
deriving DecidableEq

/-- Models `GeneSets.__init__(gene_sets, name, allow_redundant, remove_empty, path,
collapse_redundant, collapse_limit)`: computes the redundancy groups, emits the
redundancy warning, removes (or reports) empty sets, and optionally collapses
each redundant group into one synthetic set. Returns the instance together
with the warnings emitted, in emission order. -/
def GeneSets.init (gene_sets : List GeneSet) (name : String) (allow_redundant : Bool)
    (remove_empty : Bool) (path : Option String) (collapse_redundant : Option String)
    (collapse_limit : Nat) : GeneSetsData × List Warning :=
  let redundant := findRedundant gene_sets
  let handled := emptyHandledSets gene_sets remove_empty
  let collapse : List GeneSet × List Warning :=
    if truthyStr collapse_redundant = true ∧ anyRedundant gene_sets = true then
      let sep := collapse_redundant.getD ""
      let pairs := collapsedGeneSets gene_sets sep collapse_limit
      ((pairs.map Prod.fst) ++
          handled.filter (fun gs => ¬ (redundant.map Prod.fst).any (fun k => k == gs.genes)),
        collapseLimitWarnings gene_sets collapse_limit ++ (pairs.map Prod.snd).flatten ++
          [Warning.collapsedSummary (affectedCount gene_sets) redundant.length sep])
    else (handled, [])
  (⟨collapse.1, name, path, redundant, pyEmptyGeneSets gene_sets⟩,
    redundancyWarnings gene_sets allow_redundant collapse_redundant ++
      emptyHandlingWarnings gene_sets remove_empty ++ collapse.2)

/-- Models `GeneSets.subset(genes, min_representation)`: for every member set compute
the overlap with the universe and `representativeness = len(overlap) / len(genes)`,
keep the sets meeting the floor (built with `warn_if_empty=False`), and feed the
resulting Python set to the `GeneSets` constructor with all defaults. The
division is evaluated for every member, so a member with zero genes raises
`ZeroDivisionError`, modelled as `none`. `subsetCandidates` is the body of the
set comprehension (the kept sets, before Python-set deduplication). -/
def subsetCandidates (d : GeneSetsData) (genes : Finset String) (min_representation : ℚ) :
    List GeneSet :=
  d.gene_sets.filterMap (fun gs =>
    let overlap := gs.genes ∩ genes
    let representativeness : ℚ := (overlap.card : ℚ) / (gs.genes.card : ℚ)
    if min_representation ≤ representativeness then
      some (GeneSet.init gs.name (sortedOf overlap) none false (some representativeness)).1
    else none)

def GeneSets.subset (d : GeneSetsData) (genes : Finset String) (min_representation : ℚ) :
    Option (GeneSetsData × List Warning) :=
  if d.gene_sets.any (fun gs => gs.genes == ∅) then none
  else
    some (GeneSets.init (pySetList (subsetCandidates d genes min_representation))
      "" false true none none 10)

/-- Models `GeneSets.all_genes`: the union of every member set's genes, accumulated
with `all_genes.update(gene_set.genes)`. -/
def GeneSets.allGenes (d : GeneSetsData) : Finset String :=
  d.gene_sets.foldl (fun acc gs => acc ∪ gs.genes) ∅

/-- Models `GeneSets.trim(min_genes, max_genes)`: keep the sets whose gene count lies
in the inclusive range, and rebuild with the default constructor arguments
(`max_genes = none` models the default `float('Inf')`). -/
def GeneSets.trim (d : GeneSetsData) (min_genes : Nat) (max_genes : Option Nat) :
    GeneSetsData × List Warning :=
  GeneSets.init
    (pySetList (d.gene_sets.filter (fun gs =>
      min_genes ≤ gs.genes.card ∧ (∀ m ∈ max_genes, gs.genes.card ≤ m))))
    "" false true none none 10

/-- Models `GeneSets.extract(set_names)`: keep the sets whose name is in the given
collection, and rebuild with the default constructor arguments. -/
def GeneSets.extract (d : GeneSetsData) (set_names : List String) :
    GeneSetsData × List Warning :=
  GeneSets.init
    (pySetList (d.gene_sets.filter (fun gs => gs.name ∈ set_names)))
    "" false true none none 10

/-- The `GeneSets.collapse_redundant(sep)` method: re-run the constructor on
the member sets with collapsing enabled and every other argument left at its
default (in particular `name=''` and `path=None`). -/
def GeneSets.collapseRedundantSets (d : GeneSetsData) (sep : String) :
    GeneSetsData × List Warning :=
  GeneSets.init d.gene_sets "" false true none (some sep) 10

/-- One step of building the `{gene_set.name: gene_set}` dict: Python dict
insertion (later entries overwrite, insertion order preserved). -/
def dictInsertByName (m : List (String × GeneSet)) (gs : GeneSet) : List (String × GeneSet) :=
  if m.any (fun p => p.1 == gs.name) then
    m.map (fun p => if p.1 = gs.name then (gs.name, gs) else p)
  else m ++ [(gs.name, gs)]

/-- Models `GeneSets.gene_sets_by_name`: the `{gene_set.name: gene_set}` dict (later
entries win), guarded by `assert len(self.gene_sets) == len(by_name)`; the
failed assertion is modelled as `none`. -/
def GeneSets.geneSetsByName (d : GeneSetsData) : Option (List (String × GeneSet)) :=
  let byName := d.gene_sets.foldl dictInsertByName []
  if d.gene_sets.length = byName.length then some byName else none

/-- Discriminator: is this warning the verbatim redundancy listing? -/
def isRedundantVerbatim : Warning → Bool
  | Warning.redundantVerbatim _ => true
  | _ => false

/-- Discriminator: is this warning the count-only redundancy summary? -/
def isRedundantSummary : Warning → Bool
  | Warning.redundantSummary _ _ => true
  | _ => false

/-- The `(name, genes)` keys of a list of gene sets, as a finite set: the
content of a Python `set` of `GeneSet`s, as compared by `GeneSets.__eq__`. -/
def contentKeys (l : List GeneSet) : Finset (String × Finset String) :=
  (l.map GeneSet.key).toFinset

/-- Models `GeneSets.__eq__`: `set(self.gene_sets) == set(other.gene_sets)` and the
collection names are equal. -/
def GeneSets.pyEq (a b : GeneSetsData) : Prop :=
  contentKeys a.gene_sets = contentKeys b.gene_sets ∧ a.name = b.name

/-- The tab-separated fields of the line `GeneSets._to_gmt` writes for one
gene set: `name`, then each gene (the frozenset's iteration order modelled as
ascending order); no description field. -/
def GeneSet.toGmtFields (gs : GeneSet) : List String :=
  gs.name :: sortedOf gs.genes

/-- Models `GeneSet.from_gmt_line`: `name, description, *ids = line.strip().split('\t')`,
then `cls(name, ids, description, **kwargs)`; fewer than two fields raise a
`ValueError` from the unpacking, modelled as `none`. -/
def GeneSet.fromGmtFields (fields : List String) (warn_if_empty : Bool) :
    Option (GeneSet × List Warning) :=
  match fields with
  | name :: description :: ids => some (GeneSet.init name ids (some description) warn_if_empty none)
  | _ => none

/-- Models `GeneSets._to_gmt`: one line (of tab-separated fields) per member set. -/
def GeneSets.toGmt (d : GeneSetsData) : List (List String) :=
  d.gene_sets.map GeneSet.toGmtFields

/-- Parse every line with `GeneSet.from_gmt_line(line, warn_if_empty=False)`;
any failing line aborts the whole parse. -/
def parseGmtLines : List (List String) → Option (List (GeneSet × List Warning))
  | [] => some []
  | line :: rest =>
    match GeneSet.fromGmtFields line false, parseGmtLines rest with
    | some p, some ps => some (p :: ps)
    | _, _ => none

/-- Models `GeneSets.from_gmt`: parse each line with `warn_if_empty=False`, build the
Python set of the parsed gene sets, and hand it to the constructor with the
given collection name and path and all other arguments at their defaults. -/
def GeneSets.fromGmt (lines : List (List String)) (name : String) (path : Option String) :
    Option (GeneSetsData × List Warning) :=
  (parseGmtLines lines).map (fun parsed =>
    let r := GeneSets.init (pySetList (parsed.map Prod.fst)) name false true path none 10
    (r.1, (parsed.map Prod.snd).flatten ++ r.2))

/-- The gene of a set that `GeneSets._to_gmt` serializes first (the head of
the modelled frozenset iteration order). -/
def serFirst (gs : GeneSet) : String :=
  (sortedOf gs.genes).headI

/-! ## Basic lemmas about the Python-set model -/

theorem mem_of_mem_pySetList {gs : GeneSet} : ∀ {l : List GeneSet}, gs ∈ pySetList l → gs ∈ l
  | [], h => by simp [pySetList] at h
  | a :: t, h => by
    simp only [pySetList, List.mem_cons] at h
    rcases h with h | h
    · exact h ▸ List.mem_cons_self a t
    · exact List.mem_cons_of_mem a (mem_of_mem_pySetList (List.mem_of_mem_filter h))

theorem exists_key_mem_pySetList {gs : GeneSet} :
    ∀ {l : List GeneSet}, gs ∈ l → ∃ e ∈ pySetList l, e.key = gs.key := by
  intro l
  induction l with
  | nil => intro h; simp at h
  | cons a t ih =>
    intro h
    rcases List.mem_cons.mp h with rfl | ht
    · exact ⟨gs, List.mem_cons_self _ _, rfl⟩
    · rcases ih ht with ⟨e, he, hk⟩
      by_cases hek : e.key = a.key
      · exact ⟨a, List.mem_cons_self _ _, by rw [← hek, hk]⟩
      · refine ⟨e, ?_, hk⟩
        simp only [pySetList, List.mem_cons]
        exact Or.inr (List.mem_filter.mpr ⟨he, by simpa using hek⟩)

theorem mem_contentKeys {x : String × Finset String} {l : List GeneSet} :
    x ∈ contentKeys l ↔ ∃ e ∈ l, e.key = x := by
  simp [contentKeys]

theorem contentKeys_pySetList (l : List GeneSet) :
    contentKeys (pySetList l) = contentKeys l := by
  ext x
  rw [mem_contentKeys, mem_contentKeys]
  constructor
  · rintro ⟨e, he, rfl⟩
    exact ⟨e, mem_of_mem_pySetList he, rfl⟩
  · rintro ⟨e, he, rfl⟩
    exact exists_key_mem_pySetList he

theorem mem_of_mem_pyDiffList {gs : GeneSet} {l r : List GeneSet} :
    gs ∈ pyDiffList l r → gs ∈ l := fun h => List.mem_of_mem_filter h

/-! ## Lemmas about the empty-set handling step -/

theorem pyEmptyGeneSets_genes {gs : GeneSet} {l : List GeneSet}
    (h : gs ∈ pyEmptyGeneSets l) : gs.genes = ∅ := by
  have := List.mem_of_mem_filter (mem_of_mem_pySetList h)
  simpa using (List.mem_filter.mp (mem_of_mem_pySetList h)).2

theorem pyEmptyGeneSets_ne_nil {gs : GeneSet} {l : List GeneSet}
    (hm : gs ∈ l) (he : gs.genes = ∅) : pyEmptyGeneSets l ≠ [] := by
  have hf : gs ∈ l.filter (fun x => x.genes == ∅) :=
    List.mem_filter.mpr ⟨hm, by simpa using he⟩
  rcases exists_key_mem_pySetList hf with ⟨e, hein, _⟩
  intro hnil
  rw [pyEmptyGeneSets] at hnil
  rw [hnil] at hein
  exact absurd hein (List.not_mem_nil e)

theorem mem_of_mem_emptyHandledSets {gs : GeneSet} {l : List GeneSet} {re : Bool}
    (h : gs ∈ emptyHandledSets l re) : gs ∈ l := by
  unfold emptyHandledSets at h
  split at h
  · exact mem_of_mem_pySetList (mem_of_mem_pyDiffList h)
  · exact h

theorem emptyHandledSets_no_empty {gs : GeneSet} {l : List GeneSet}
    (h : gs ∈ emptyHandledSets l true) : gs.genes ≠ ∅ := by
  intro he
  unfold emptyHandledSets at h
  split at h
  · -- removal branch: gs survived the set difference yet is empty
    have hl : gs ∈ pySetList l := mem_of_mem_pyDiffList h
    have hcond := (List.mem_filter.mp h).2
    have hmem : gs ∈ l := mem_of_mem_pySetList hl
    have hf : gs ∈ l.filter (fun x => x.genes == ∅) :=
      List.mem_filter.mpr ⟨hmem, by simpa using he⟩
    rcases exists_key_mem_pySetList hf with ⟨e, hein, hkey⟩
    have : (pyEmptyGeneSets l).any (fun x => x.key == gs.key) = true :=
      List.any_eq_true.mpr ⟨e, hein, by simpa using hkey⟩
    simp only [pyDiffList] at hcond
    rw [this] at hcond
    simp at hcond
  · -- no-removal branch only taken when there is no empty set at all
    rename_i hc
    rw [Classical.not_and_iff_or_not_not] at hc
    rcases hc with hc | hc
    · exact pyEmptyGeneSets_ne_nil h he (by simpa using hc)
    · simp at hc

theorem emptyHandledSets_of_no_empty {l : List GeneSet} {re : Bool}
    (h : ∀ gs ∈ l, gs.genes ≠ ∅) : emptyHandledSets l re = l := by
  have hnil : pyEmptyGeneSets l = [] := by
    unfold pyEmptyGeneSets
    have : l.filter (fun x => x.genes == ∅) = [] := by
      rw [List.filter_eq_nil_iff]
      intro a ha
      simpa using h a ha
    rw [this]; rfl
  unfold emptyHandledSets
  rw [hnil]
  simp

/-! ## Lemmas about `GeneSet.init` and `GeneSets.init` -/

theorem GeneSet.init_fst (name : String) (genes : List String) (description : Option String)
    (w : Bool) (r : Option ℚ) :
    (GeneSet.init name genes description w r).1 =
      ⟨name, genes.toFinset, description, r,
        if genes.length ≠ genes.toFinset.card then
          some ((genes.dedup.filter (fun g => 1 < genes.count g)).map
            (fun g => (g, genes.count g)))
        else none⟩ := rfl

theorem GeneSet.init_of_nodup (name : String) {genes : List String}
    (description : Option String) (w : Bool) (r : Option ℚ) (h : genes.Nodup) :
    (GeneSet.init name genes description w r).1 = ⟨name, genes.toFinset, description, r, none⟩ := by
  rw [GeneSet.init_fst]
  have hc : genes.toFinset.card = genes.length := List.toFinset_card_of_nodup h
  simp [hc]

theorem GeneSet.init_warnings_of_nodup (name : String) {genes : List String}
    (description : Option String) (r : Option ℚ) (h : genes.Nodup) :
    (GeneSet.init name genes description false r).2 = [] := by
  have hc : genes.toFinset.card = genes.length := List.toFinset_card_of_nodup h
  simp [GeneSet.init, hc]

theorem GeneSets.init_name (l : List GeneSet) (n : String) (ar re : Bool) (p : Option String)
    (cr : Option String) (lim : Nat) : (GeneSets.init l n ar re p cr lim).1.name = n := rfl

theorem GeneSets.init_path (l : List GeneSet) (n : String) (ar re : Bool) (p : Option String)
    (cr : Option String) (lim : Nat) : (GeneSets.init l n ar re p cr lim).1.path = p := rfl

theorem GeneSets.init_empty_gene_sets (l : List GeneSet) (n : String) (ar re : Bool)
    (p : Option String) (cr : Option String) (lim : Nat) :
    (GeneSets.init l n ar re p cr lim).1.empty_gene_sets = pyEmptyGeneSets l := rfl

theorem GeneSets.init_redundant (l : List GeneSet) (n : String) (ar re : Bool)
    (p : Option String) (cr : Option String) (lim : Nat) :
    (GeneSets.init l n ar re p cr lim).1.redundant = findRedundant l := rfl

theorem GeneSets.init_gene_sets_no_collapse (l : List GeneSet) (n : String) (ar re : Bool)
    (p : Option String) {cr : Option String} (lim : Nat) (h : truthyStr cr = false) :
    (GeneSets.init l n ar re p cr lim).1.gene_sets = emptyHandledSets l re := by
  unfold GeneSets.init
  simp [h]

theorem GeneSets.init_gene_sets_collapse (l : List GeneSet) (n : String) (ar re : Bool)
    (p : Option String) {cr : Option String} (lim : Nat) (h : truthyStr cr = true)
    (hr : anyRedundant l = true) :
    (GeneSets.init l n ar re p cr lim).1.gene_sets =
      (collapsedGeneSets l (cr.getD "") lim).map Prod.fst ++
        (emptyHandledSets l re).filter
          (fun gs => ¬ ((findRedundant l).map Prod.fst).any (fun k => k == gs.genes)) := by
  unfold GeneSets.init
  simp [h, hr]

theorem GeneSets.init_warnings (l : List GeneSet) (n : String) (ar re : Bool)
    (p : Option String) (cr : Option String) (lim : Nat) :
    (GeneSets.init l n ar re p cr lim).2 =
      redundancyWarnings l ar cr ++ emptyHandlingWarnings l re ++
        (if truthyStr cr = true ∧ anyRedundant l = true then
          collapseLimitWarnings l lim ++
            ((collapsedGeneSets l (cr.getD "") lim).map Prod.snd).flatten ++
            [Warning.collapsedSummary (affectedCount l) (findRedundant l).length (cr.getD "")]
        else []) := by
  unfold GeneSets.init
  by_cases hc : truthyStr cr = true ∧ anyRedundant l = true <;> simp [hc]

theorem mem_init_gene_sets (l : List GeneSet) (n : String) (ar re : Bool) (p : Option String)
    {cr : Option String} (lim : Nat) (h : truthyStr cr = false) {gs : GeneSet}
    (hm : gs ∈ (GeneSets.init l n ar re p cr lim).1.gene_sets) : gs ∈ l := by
  rw [GeneSets.init_gene_sets_no_collapse l n ar re p lim h] at hm
  exact mem_of_mem_emptyHandledSets hm

theorem GeneSets.init_gene_sets_passthrough (l : List GeneSet) (n : String) (ar re : Bool)
    (p : Option String) {cr : Option String} (lim : Nat) (h : truthyStr cr = false)
    (hne : ∀ gs ∈ l, gs.genes ≠ ∅) :
    (GeneSets.init l n ar re p cr lim).1.gene_sets = l := by
  rw [GeneSets.init_gene_sets_no_collapse l n ar re p lim h]
  exact emptyHandledSets_of_no_empty hne

/-! ## Lemmas about `all_genes` -/

theorem subset_foldl_union (l : List GeneSet) :
    ∀ acc : Finset String, acc ⊆ l.foldl (fun a gs => a ∪ gs.genes) acc := by
  induction l with
  | nil => intro acc; simp
  | cons a t ih =>
    intro acc
    calc acc ⊆ acc ∪ a.genes := Finset.subset_union_left
    _ ⊆ _ := ih (acc ∪ a.genes)

theorem mem_foldl_union {gs : GeneSet} :
    ∀ {l : List GeneSet}, gs ∈ l →
      ∀ acc : Finset String, gs.genes ⊆ l.foldl (fun a x => a ∪ x.genes) acc := by
  intro l
  induction l with
  | nil => intro h; simp at h
  | cons a t ih =>
    intro h acc
    rcases List.mem_cons.mp h with rfl | ht
    · exact Finset.subset_union_right.trans (subset_foldl_union t (acc ∪ gs.genes))
    · exact ih ht (acc ∪ a.genes)

theorem genes_subset_allGenes {d : GeneSetsData} {gs : GeneSet} (h : gs ∈ d.gene_sets) :
    gs.genes ⊆ GeneSets.allGenes d :=
  mem_foldl_union h ∅

/-! ## Lemmas about `subset` -/

theorem subsetCandidate_fst (name : String) (s : Finset String) (q : Option ℚ) :
    (GeneSet.init name (sortedOf s) none false q).1 = ⟨name, s, none, q, none⟩ := by
  rw [GeneSet.init_of_nodup name none false q (sortedOf_nodup s)]
  simp [sortedOf_toFinset]

theorem mem_subsetCandidates {d : GeneSetsData} {u : Finset String} {r : ℚ} {gs' : GeneSet}
    (h : gs' ∈ subsetCandidates d u r) :
    ∃ gs ∈ d.gene_sets,
      r ≤ ((gs.genes ∩ u).card : ℚ) / (gs.genes.card : ℚ) ∧
      gs' = ⟨gs.name, gs.genes ∩ u, none,
        some (((gs.genes ∩ u).card : ℚ) / (gs.genes.card : ℚ)), none⟩ := by
  unfold subsetCandidates at h
  rcases List.mem_filterMap.mp h with ⟨gs, hgs, hf⟩
  simp only at hf
  split at hf
  · rename_i hle
    refine ⟨gs, hgs, hle, ?_⟩
    have := subsetCandidate_fst gs.name (gs.genes ∩ u)
      (some (((gs.genes ∩ u).card : ℚ) / (gs.genes.card : ℚ)))
    rw [this] at hf
    exact (Option.some_injective _ hf).symm
  · exact absurd hf (by simp)

theorem subset_eq_some_elim {d : GeneSetsData} {u : Finset String} {r : ℚ}
    {res : GeneSetsData} {ws : List Warning}
    (h : GeneSets.subset d u r = some (res, ws)) :
    (∀ gs ∈ d.gene_sets, gs.genes ≠ ∅) ∧
      (res, ws) = GeneSets.init (pySetList (subsetCandidates d u r)) "" false true none none 10 := by
  unfold GeneSets.subset at h
  split at h
  · exact absurd h (by simp)
  · rename_i hany
    constructor
    · intro gs hgs he
      exact hany (List.any_eq_true.mpr ⟨gs, hgs, by simpa using he⟩)
    · exact (Option.some_injective _ h).symm

/-! ## Claim theorems -/

/-- C4. For every `GeneSets` collection, universe of genes and floor `r`,
whenever `subset(genes, min_representation=r)` returns (i.e. does not raise),
every member of the result is some member set's genes intersected with the
universe, carries `representativeness = |intersection| / |original genes|`,
and that representativeness is at least `r`. -/
theorem C4_subset_representativeness (d : GeneSetsData) (u : Finset String) (r : ℚ)
    (res : GeneSetsData) (ws : List Warning)
    (h : GeneSets.subset d u r = some (res, ws)) :
    ∀ gs' ∈ res.gene_sets, ∃ gs ∈ d.gene_sets,
      gs'.name = gs.name ∧ gs'.genes = gs.genes ∩ u ∧
      gs'.representativeness = some (((gs.genes ∩ u).card : ℚ) / (gs.genes.card : ℚ)) ∧
      r ≤ ((gs.genes ∩ u).card : ℚ) / (gs.genes.card : ℚ) := by
  intro gs' hmem
  obtain ⟨hne, heq⟩ := subset_eq_some_elim h
  have hres : res = (GeneSets.init (pySetList (subsetCandidates d u r))
      "" false true none none 10).1 := congrArg Prod.fst heq
  rw [hres] at hmem
  have h1 : gs' ∈ pySetList (subsetCandidates d u r) :=
    @mem_init_gene_sets (pySetList (subsetCandidates d u r)) "" false true none none 10 rfl gs' hmem
  obtain ⟨gs, hgs, hle, rfl⟩ := mem_subsetCandidates (mem_of_mem_pySetList h1)
  exact ⟨gs, hgs, rfl, rfl, rfl, hle⟩

/-- C9. If a collection contains an empty gene set (possible with
`remove_empty=False`), `subset` raises an unguarded `ZeroDivisionError`
(modelled as `none`) for every universe and floor, because
`len(overlap) / len(gene_set.genes)` is evaluated with no guard on the
denominator. -/
theorem C9_subset_division_by_zero (d : GeneSetsData) (gs : GeneSet)
    (h1 : gs ∈ d.gene_sets) (h2 : gs.genes = ∅) (u : Finset String) (r : ℚ) :
    GeneSets.subset d u r = none := by
  unfold GeneSets.subset
  rw [if_pos (List.any_eq_true.mpr ⟨gs, h1, by simpa using h2⟩)]

/-- C5. For every collection and universe containing `all_genes`,
whenever `subset(universe)` returns (i.e. does not raise), the result has
exactly the same `(name, genes)` content as the input collection. -/
theorem C5_subset_superset_identity (d : GeneSetsData) (u : Finset String)
    (hu : GeneSets.allGenes d ⊆ u) (res : GeneSetsData) (ws : List Warning)
    (h : GeneSets.subset d u 0 = some (res, ws)) :
    contentKeys res.gene_sets = contentKeys d.gene_sets := by
  obtain ⟨hne, heq⟩ := subset_eq_some_elim h
  have hinter : ∀ gs ∈ d.gene_sets, gs.genes ∩ u = gs.genes := fun gs hgs =>
    Finset.inter_eq_left.mpr ((genes_subset_allGenes hgs).trans hu)
  have hcand : subsetCandidates d u 0 = d.gene_sets.map (fun gs =>
      ⟨gs.name, gs.genes, none,
        some ((gs.genes.card : ℚ) / (gs.genes.card : ℚ)), none⟩) := by
    unfold subsetCandidates
    rw [List.filterMap_eq_map_iff_forall_eq_some.mpr]
    intro gs hgs
    simp only
    rw [hinter gs hgs, if_pos (div_nonneg (Nat.cast_nonneg _) (Nat.cast_nonneg _))]
    rw [subsetCandidate_fst]
  have hcne : ∀ c ∈ pySetList (subsetCandidates d u 0), c.genes ≠ ∅ := by
    intro c hc
    have hmem := mem_of_mem_pySetList hc
    rw [hcand] at hmem
    rcases List.mem_map.mp hmem with ⟨gs, hgs, rfl⟩
    exact hne gs hgs
  have hres0 : res = (GeneSets.init (pySetList (subsetCandidates d u 0))
      "" false true none none 10).1 := congrArg Prod.fst heq
  have hres : res.gene_sets = pySetList (subsetCandidates d u 0) := by
    rw [hres0]
    exact @GeneSets.init_gene_sets_passthrough (pySetList (subsetCandidates d u 0))
      "" false true none none 10 rfl hcne
  rw [hres, contentKeys_pySetList, hcand]
  unfold contentKeys
  rw [List.map_map]
  rfl

/-! ## Lemmas about `gene_sets_by_name` -/

theorem keys_dictInsertByName (m : List (String × GeneSet)) (gs : GeneSet) :
    (dictInsertByName m gs).map Prod.fst =
      if gs.name ∈ m.map Prod.fst then m.map Prod.fst else m.map Prod.fst ++ [gs.name] := by
  unfold dictInsertByName
  by_cases h : gs.name ∈ m.map Prod.fst
  · rw [if_pos (List.any_eq_true.mpr (by
      rcases List.mem_map.mp h with ⟨p, hp, hfst⟩
      exact ⟨p, hp, by simpa using hfst⟩))]
    rw [if_pos h, List.map_map]
    apply List.map_congr_left
    intro p _
    by_cases hp : p.1 = gs.name
    · simp [hp]
    · simp [hp]
  · rw [if_neg (by
      intro hc
      rcases List.any_eq_true.mp hc with ⟨p, hp, hn⟩
      exact h (List.mem_map.mpr ⟨p, hp, by simpa using hn⟩))]
    rw [if_neg h]
    simp

theorem keys_foldl_dict :
    ∀ (l : List GeneSet) (m : List (String × GeneSet)),
      ((l.foldl dictInsertByName m).map Prod.fst).toFinset =
        (m.map Prod.fst).toFinset ∪ (l.map GeneSet.name).toFinset := by
  intro l
  induction l with
  | nil => intro m; simp
  | cons a t ih =>
    intro m
    rw [List.foldl_cons, ih]
    rw [keys_dictInsertByName]
    by_cases h : a.name ∈ m.map Prod.fst
    · rw [if_pos h]
      ext x
      simp only [Finset.mem_union, List.mem_toFinset, List.map_cons, List.mem_cons]
      constructor
      · rintro (hx | hx)
        · exact Or.inl hx
        · exact Or.inr (Or.inr hx)
      · rintro (hx | hx | hx)
        · exact Or.inl hx
        · exact Or.inl (hx ▸ h)
        · exact Or.inr hx
    · rw [if_neg h]
      ext x
      simp only [Finset.mem_union, List.mem_toFinset, List.map_cons, List.mem_cons,
        List.mem_append, List.mem_singleton]
      tauto

theorem keys_foldl_nodup :
    ∀ (l : List GeneSet) (m : List (String × GeneSet)),
      ((m.map Prod.fst).Nodup) → ((l.foldl dictInsertByName m).map Prod.fst).Nodup := by
  intro l
  induction l with
  | nil => intro m h; exact h
  | cons a t ih =>
    intro m h
    rw [List.foldl_cons]
    apply ih
    rw [keys_dictInsertByName]
    by_cases hm : a.name ∈ m.map Prod.fst
    · rw [if_pos hm]; exact h
    · rw [if_neg hm]
      rw [List.nodup_append]
      exact ⟨h, List.nodup_singleton _, by simpa using hm⟩

theorem foldl_dict_of_nodup :
    ∀ (l : List GeneSet) (m : List (String × GeneSet)),
      (l.map GeneSet.name).Nodup → (∀ gs ∈ l, gs.name ∉ m.map Prod.fst) →
      l.foldl dictInsertByName m = m ++ l.map (fun gs => (gs.name, gs)) := by
  intro l
  induction l with
  | nil => intro m _ _; simp
  | cons a t ih =>
    intro m hnd hnin
    rw [List.foldl_cons]
    have hstep : dictInsertByName m a = m ++ [(a.name, a)] := by
      unfold dictInsertByName
      rw [if_neg (by
        intro hc
        rcases List.any_eq_true.mp hc with ⟨p, hp, hn⟩
        exact hnin a (List.mem_cons_self _ _)
          (List.mem_map.mpr ⟨p, hp, by simpa using hn⟩))]
    rw [hstep, ih (m ++ [(a.name, a)])
      (by exact (List.nodup_cons.mp (by simpa using hnd)).2)
      (by
        intro gs hgs
        rw [List.map_append, List.mem_append]
        rintro (hin | hin)
        · exact hnin gs (List.mem_cons_of_mem a hgs) hin
        · have : gs.name = a.name := by simpa using hin
          have hna : a.name ∉ t.map GeneSet.name :=
            (List.nodup_cons.mp (by simpa using hnd)).1
          exact hna (this ▸ List.mem_map_of_mem GeneSet.name hgs))]
    simp

theorem length_eq_card_keys (m : List (String × GeneSet)) :
    (m.map Prod.fst).length = m.length := List.length_map m Prod.fst

/-- If two distinct gene sets share a name, the name list has a duplicate. -/
theorem names_not_nodup_of_distinct {d : GeneSetsData} {gs1 gs2 : GeneSet}
    (h1 : gs1 ∈ d.gene_sets) (h2 : gs2 ∈ d.gene_sets) (hne : gs1 ≠ gs2)
    (hn : gs1.name = gs2.name) : ¬ (d.gene_sets.map GeneSet.name).Nodup := by
  intro hnd
  exact hne (List.inj_on_of_nodup_map hnd h1 h2 hn)

theorem nodup_of_toFinset_card_eq_length {α : Type} [DecidableEq α] {l : List α}
    (h : l.toFinset.card = l.length) : l.Nodup := by
  rw [List.card_toFinset] at h
  have hs := l.dedup_sublist
  rw [← hs.eq_of_length h]
  exact l.nodup_dedup

/-- C8. `gene_sets_by_name` asserts name uniqueness at construction time:
it fails (modelled as `none`) whenever the collection holds two distinct gene
sets with the same name, and for all-unique names it returns the mapping from
each name to its gene set. -/
theorem C8_gene_sets_by_name (d : GeneSetsData) :
    ((∃ gs1 ∈ d.gene_sets, ∃ gs2 ∈ d.gene_sets, gs1 ≠ gs2 ∧ gs1.name = gs2.name) →
      GeneSets.geneSetsByName d = none) ∧
    ((d.gene_sets.map GeneSet.name).Nodup →
      ∃ m, GeneSets.geneSetsByName d = some m ∧
        m = d.gene_sets.map (fun gs => (gs.name, gs)) ∧
        ∀ gs ∈ d.gene_sets, (gs.name, gs) ∈ m) := by
  constructor
  · rintro ⟨gs1, h1, gs2, h2, hne, hn⟩
    have hnodup := names_not_nodup_of_distinct h1 h2 hne hn
    unfold GeneSets.geneSetsByName
    rw [if_neg]
    intro hlen
    apply hnodup
    have hkeysnd : ((d.gene_sets.foldl dictInsertByName []).map Prod.fst).Nodup :=
      keys_foldl_nodup d.gene_sets [] (by simp)
    have hkeyscard := List.toFinset_card_of_nodup hkeysnd
    have hkeysfin := keys_foldl_dict d.gene_sets []
    simp only [List.map_nil, List.toFinset_nil, Finset.empty_union] at hkeysfin
    have hlen2 : ((d.gene_sets.foldl dictInsertByName []).map Prod.fst).length =
        (d.gene_sets.foldl dictInsertByName []).length := List.length_map _ _
    apply nodup_of_toFinset_card_eq_length
    rw [← hkeysfin, hkeyscard, hlen2, ← hlen, List.length_map]
  · intro hnd
    have hfold := foldl_dict_of_nodup d.gene_sets [] hnd (by simp)
    simp only [List.nil_append] at hfold
    refine ⟨d.gene_sets.map (fun gs => (gs.name, gs)), ?_, rfl, ?_⟩
    · unfold GeneSets.geneSetsByName
      rw [hfold, if_pos (List.length_map _ _).symm]
    · intro gs hgs
      exact List.mem_map.mpr ⟨gs, hgs, rfl⟩

/-- C8 witness. A concrete duplicate-name collection fails the assertion;
a concrete unique-name collection returns the full mapping. -/
theorem C8_witness :
    (GeneSets.geneSetsByName
        ⟨[⟨"a", {"A"}, none, none, none⟩, ⟨"a", {"B"}, none, none, none⟩],
          "", none, [], []⟩ = none) ∧
    (∃ m, GeneSets.geneSetsByName
        ⟨[⟨"a", {"A"}, none, none, none⟩, ⟨"b", {"B"}, none, none, none⟩],
          "", none, [], []⟩ = some m ∧
      m = [⟨"a", {"A"}, none, none, none⟩, ⟨"b", {"B"}, none, none, none⟩].map
        (fun gs => (gs.name, gs)) ∧
      ∀ gs ∈ [(⟨"a", {"A"}, none, none, none⟩ : GeneSet), ⟨"b", {"B"}, none, none, none⟩],
        (gs.name, gs) ∈ m) := by
  constructor
  · exact (C8_gene_sets_by_name
      ⟨[⟨"a", {"A"}, none, none, none⟩, ⟨"a", {"B"}, none, none, none⟩], "", none, [], []⟩).1
      ⟨⟨"a", {"A"}, none, none, none⟩, by decide, ⟨"a", {"B"}, none, none, none⟩,
        by decide, by decide, rfl⟩
  · exact (C8_gene_sets_by_name
      ⟨[⟨"a", {"A"}, none, none, none⟩, ⟨"b", {"B"}, none, none, none⟩], "", none, [], []⟩).2
      (by decide)

/-- C7. The `GeneSet` constructor deduplicates its input genes into a set;
when the input contains duplicates it emits a warning and stores the
multiplicity of each duplicated gene as `redundant_genes`. -/
theorem C7_geneset_duplicate_genes (name : String) (genes : List String)
    (description : Option String) (w : Bool) (r : Option ℚ) (h : ¬ genes.Nodup)
    (gs : GeneSet) (ws : List Warning)
    (heq : GeneSet.init name genes description w r = (gs, ws)) :
    gs.genes = genes.toFinset ∧
    ∃ m, gs.redundant_genes = some m ∧ Warning.nonUniqueGenes name m ∈ ws ∧
      ∀ g c, (g, c) ∈ m ↔ 1 < genes.count g ∧ c = genes.count g := by
  have hneq : genes.length ≠ genes.toFinset.card := by
    intro hc
    exact h (nodup_of_toFinset_card_eq_length hc.symm)
  have hgs : gs = (GeneSet.init name genes description w r).1 := (congrArg Prod.fst heq).symm
  have hws : ws = (GeneSet.init name genes description w r).2 := (congrArg Prod.snd heq).symm
  refine ⟨by rw [hgs, GeneSet.init_fst], ?_⟩
  refine ⟨(genes.dedup.filter (fun g => 1 < genes.count g)).map
    (fun g => (g, genes.count g)), ?_, ?_, ?_⟩
  · rw [hgs, GeneSet.init_fst]
    simp only
    rw [if_pos hneq]
  · rw [hws]
    unfold GeneSet.init
    simp only
    rw [if_pos hneq]
    exact List.mem_append_right _ (List.mem_singleton.mpr rfl)
  · intro g c
    simp only [List.mem_map, List.mem_filter, List.mem_dedup, decide_eq_true_eq,
      Prod.mk.injEq]
    constructor
    · rintro ⟨a, ⟨_, hcount⟩, rfl, rfl⟩
      exact ⟨hcount, rfl⟩
    · rintro ⟨hcount, rfl⟩
      exact ⟨g, ⟨List.count_pos_iff.mp (by omega), hcount⟩, rfl, rfl⟩

/-- C7 witness. `GeneSet('x', ['TP53', 'TP53'])` deduplicates to
`{'TP53'}`, warns, and records the multiplicity mapping `{'TP53': 2}`. -/
theorem C7_witness :
    (⟨"x", {"TP53"}, none, none, some [("TP53", 2)]⟩ : GeneSet).genes =
      ["TP53", "TP53"].toFinset ∧
    ∃ m, (⟨"x", {"TP53"}, none, none, some [("TP53", 2)]⟩ : GeneSet).redundant_genes = some m ∧
      Warning.nonUniqueGenes "x" m ∈ [Warning.nonUniqueGenes "x" [("TP53", 2)]] ∧
      ∀ g c, (g, c) ∈ m ↔ 1 < ["TP53", "TP53"].count g ∧ c = ["TP53", "TP53"].count g :=
  C7_geneset_duplicate_genes "x" ["TP53", "TP53"] none true none (by decide)
    ⟨"x", {"TP53"}, none, none, some [("TP53", 2)]⟩
    [Warning.nonUniqueGenes "x" [("TP53", 2)]] (by decide)

/-- C10. The derivation operations `trim`, `extract`, `subset` and
`collapse_redundant` all rebuild through the constructor with the default
`name=''` and `path=None`; since `GeneSets.__eq__` also compares the
collection name, a derivation of a non-empty-named source is never `==` to
its source. -/
theorem C10_derivations_lose_name_and_path (d : GeneSetsData) (h : d.name ≠ "")
    (a : Nat) (b : Option Nat) (ns : List String) (sep : String)
    (u : Finset String) (r : ℚ) :
    ((GeneSets.trim d a b).1.name = "" ∧ (GeneSets.trim d a b).1.path = none ∧
      ¬ GeneSets.pyEq (GeneSets.trim d a b).1 d) ∧
    ((GeneSets.extract d ns).1.name = "" ∧ (GeneSets.extract d ns).1.path = none ∧
      ¬ GeneSets.pyEq (GeneSets.extract d ns).1 d) ∧
    ((GeneSets.collapseRedundantSets d sep).1.name = "" ∧
      (GeneSets.collapseRedundantSets d sep).1.path = none ∧
      ¬ GeneSets.pyEq (GeneSets.collapseRedundantSets d sep).1 d) ∧
    (∀ res ws, GeneSets.subset d u r = some (res, ws) →
      res.name = "" ∧ res.path = none ∧ ¬ GeneSets.pyEq res d) := by
  have hne : ∀ e : GeneSetsData, e.name = "" → ¬ GeneSets.pyEq e d := by
    intro e he hpe
    exact h (he ▸ hpe.2.symm) 
  refine ⟨⟨rfl, rfl, hne _ rfl⟩, ⟨rfl, rfl, hne _ rfl⟩, ⟨rfl, rfl, hne _ rfl⟩, ?_⟩
  intro res ws hs
  obtain ⟨-, heq⟩ := subset_eq_some_elim hs
  have hres : res = (GeneSets.init (pySetList (subsetCandidates d u r))
      "" false true none none 10).1 := congrArg Prod.fst heq
  rw [hres]
  exact ⟨rfl, rfl, hne _ rfl⟩

/-- C10 witness. A concrete collection named `"x"` with path `"f.gmt"`:
each derivation yields name `''`, path `None`, and is not `==` to the source. -/
theorem C10_witness :
    ((GeneSets.trim ⟨[⟨"s", {"A"}, none, none, none⟩], "x", some "f.gmt", [], []⟩ 0 none).1.name
        = "" ∧
      (GeneSets.trim ⟨[⟨"s", {"A"}, none, none, none⟩], "x", some "f.gmt", [], []⟩ 0
        none).1.path = none ∧
      ¬ GeneSets.pyEq
        (GeneSets.trim ⟨[⟨"s", {"A"}, none, none, none⟩], "x", some "f.gmt", [], []⟩ 0 none).1
        ⟨[⟨"s", {"A"}, none, none, none⟩], "x", some "f.gmt", [], []⟩) ∧
    ((GeneSets.extract ⟨[⟨"s", {"A"}, none, none, none⟩], "x", some "f.gmt", [], []⟩
        ["s"]).1.name = "" ∧
      (GeneSets.extract ⟨[⟨"s", {"A"}, none, none, none⟩], "x", some "f.gmt", [], []⟩
        ["s"]).1.path = none ∧
      ¬ GeneSets.pyEq
        (GeneSets.extract ⟨[⟨"s", {"A"}, none, none, none⟩], "x", some "f.gmt", [], []⟩
          ["s"]).1
        ⟨[⟨"s", {"A"}, none, none, none⟩], "x", some "f.gmt", [], []⟩) ∧
    ((GeneSets.collapseRedundantSets
        ⟨[⟨"s", {"A"}, none, none, none⟩], "x", some "f.gmt", [], []⟩ "|").1.name = "" ∧
      (GeneSets.collapseRedundantSets
        ⟨[⟨"s", {"A"}, none, none, none⟩], "x", some "f.gmt", [], []⟩ "|").1.path = none ∧
      ¬ GeneSets.pyEq
        (GeneSets.collapseRedundantSets
          ⟨[⟨"s", {"A"}, none, none, none⟩], "x", some "f.gmt", [], []⟩ "|").1
        ⟨[⟨"s", {"A"}, none, none, none⟩], "x", some "f.gmt", [], []⟩) ∧
    (∀ res ws,
      GeneSets.subset ⟨[⟨"s", {"A"}, none, none, none⟩], "x", some "f.gmt", [], []⟩ {"A"} 0 =
        some (res, ws) →
      res.name = "" ∧ res.path = none ∧
      ¬ GeneSets.pyEq res ⟨[⟨"s", {"A"}, none, none, none⟩], "x", some "f.gmt", [], []⟩) :=
  C10_derivations_lose_name_and_path
    ⟨[⟨"s", {"A"}, none, none, none⟩], "x", some "f.gmt", [], []⟩
    (by decide) 0 none ["s"] "|" {"A"} 0

theorem GeneSets.init_gene_sets_no_redundant (l : List GeneSet) (n : String) (ar re : Bool)
    (p : Option String) (cr : Option String) (lim : Nat) (hr : anyRedundant l = false) :
    (GeneSets.init l n ar re p cr lim).1.gene_sets = emptyHandledSets l re := by
  unfold GeneSets.init
  simp [hr]

theorem collapsed_mem_genes {l : List GeneSet} {sep : String} {lim : Nat} {c : GeneSet}
    (hc : c ∈ (collapsedGeneSets l sep lim).map Prod.fst) :
    ∃ q ∈ findRedundant l, c.genes = q.1 := by
  rcases List.mem_map.mp hc with ⟨pair, hpair, rfl⟩
  unfold collapsedGeneSets at hpair
  rcases List.mem_map.mp hpair with ⟨q, hq, rfl⟩
  refine ⟨q, hq, ?_⟩
  rw [GeneSet.init_fst]
  exact sortedOf_toFinset q.1

/-- C2 (amended). With `remove_empty=True` the constructor records every
empty input set (up to Python-set identity) in `empty_gene_sets`, emits the
removal warning citing their count, and the constructed collection contains
no empty gene set provided collapsing is off, or every redundant group has
non-empty gene content, or every redundant group has empty gene content (in
the last case `any(redundant)` is false — it tests the truthiness of the
dict's frozenset keys — so the collapse is skipped). Without one of those
provisos, i.e. with a separator and redundant groups of both kinds present,
the collapse step re-introduces one empty synthetic set per redundant group
of empty sets; see the counterexample. -/
theorem C2_remove_empty_amended (input : List GeneSet) (n : String) (ar : Bool)
    (p : Option String) (cr : Option String) (lim : Nat)
    (h : truthyStr cr = false ∨ (∀ q ∈ findRedundant input, q.1 ≠ ∅) ∨
      (∀ q ∈ findRedundant input, q.1 = ∅))
    (res : GeneSetsData) (ws : List Warning)
    (heq : GeneSets.init input n ar true p cr lim = (res, ws)) :
    (∀ gs ∈ res.gene_sets, gs.genes ≠ ∅) ∧
    (∀ gs ∈ input, gs.genes = ∅ → ∃ e ∈ res.empty_gene_sets, e.key = gs.key) ∧
    ((∃ gs ∈ input, gs.genes = ∅) →
      Warning.emptyRemoved res.empty_gene_sets.length ∈ ws) := by
  have hres : res = (GeneSets.init input n ar true p cr lim).1 := (congrArg Prod.fst heq).symm
  have hws : ws = (GeneSets.init input n ar true p cr lim).2 := (congrArg Prod.snd heq).symm
  have hemptyrec : res.empty_gene_sets = pyEmptyGeneSets input := by
    rw [hres, GeneSets.init_empty_gene_sets]
  refine ⟨?_, ?_, ?_⟩
  · -- no empty member in the result
    intro gs hgs he
    rw [hres] at hgs
    by_cases hcol : truthyStr cr = true ∧ anyRedundant input = true
    · rw [GeneSets.init_gene_sets_collapse input n ar true p lim hcol.1 hcol.2] at hgs
      rcases List.mem_append.mp hgs with hgs | hgs
      · rcases collapsed_mem_genes hgs with ⟨q, hq, hgenes⟩
        rcases h with h | h | h
        · rw [h] at hcol
          exact absurd hcol.1 (by simp)
        · exact h q hq (by rw [← hgenes, he])
        · rcases List.any_eq_true.mp hcol.2 with ⟨q', hq', hne'⟩
          exact absurd (h q' hq') (by simpa using hne')
      · exact emptyHandledSets_no_empty (List.mem_of_mem_filter hgs) he
    · have hsets : (GeneSets.init input n ar true p cr lim).1.gene_sets =
          emptyHandledSets input true := by
        rcases Classical.not_and_iff_or_not_not.mp hcol with hc | hc
        · exact GeneSets.init_gene_sets_no_collapse input n ar true p lim
            (by simpa using hc)
        · exact GeneSets.init_gene_sets_no_redundant input n ar true p cr lim
            (by simpa using hc)
      rw [hsets] at hgs
      exact emptyHandledSets_no_empty hgs he
  · -- every empty input set is recorded
    intro gs hgs he
    rw [hemptyrec]
    exact exists_key_mem_pySetList
      (List.mem_filter.mpr ⟨hgs, by simpa using he⟩)
  · -- the removal warning cites the recorded count
    rintro ⟨gs, hgs, he⟩
    have hnn : pyEmptyGeneSets input ≠ [] := pyEmptyGeneSets_ne_nil hgs he
    rw [hws, GeneSets.init_warnings, hemptyrec]
    apply List.mem_append_left
    apply List.mem_append_right
    unfold emptyHandlingWarnings
    rw [if_pos (fun hc => hnn (List.length_eq_zero.mp hc)), if_pos rfl]
    exact List.mem_singleton.mpr rfl

/-- C2 witness. A mixed input (one empty, one non-empty set), default
arguments: the empty set is dropped and recorded, the warning cites count 1,
and the result has no empty member. -/
theorem C2_witness :
    (∀ gs ∈ (GeneSets.init [⟨"e", ∅, none, none, none⟩, ⟨"s", {"A"}, none, none, none⟩]
        "" false true none none 10).1.gene_sets, gs.genes ≠ ∅) ∧
    (∀ gs ∈ [(⟨"e", ∅, none, none, none⟩ : GeneSet), ⟨"s", {"A"}, none, none, none⟩],
      gs.genes = ∅ →
      ∃ e ∈ (GeneSets.init [⟨"e", ∅, none, none, none⟩, ⟨"s", {"A"}, none, none, none⟩]
        "" false true none none 10).1.empty_gene_sets, e.key = gs.key) ∧
    ((∃ gs ∈ [(⟨"e", ∅, none, none, none⟩ : GeneSet), ⟨"s", {"A"}, none, none, none⟩],
        gs.genes = ∅) →
      Warning.emptyRemoved
        (GeneSets.init [⟨"e", ∅, none, none, none⟩, ⟨"s", {"A"}, none, none, none⟩]
          "" false true none none 10).1.empty_gene_sets.length ∈
        (GeneSets.init [⟨"e", ∅, none, none, none⟩, ⟨"s", {"A"}, none, none, none⟩]
          "" false true none none 10).2) :=
  C2_remove_empty_amended [⟨"e", ∅, none, none, none⟩, ⟨"s", {"A"}, none, none, none⟩]
    "" false none none 10 (Or.inl rfl) _ _ rfl

/-- C2 counterexample. The claim as stated fails when `collapse_redundant`
is a separator: here two distinct empty sets `a`, `b` form one redundant
group and `p`, `q` (sharing gene `g`) another, so `any(redundant)` is true
(the `{g}` key is truthy) and the collapse runs. With `remove_empty=True`
the empty sets are dropped, but the collapse step synthesizes one collapsed
set per redundant group *including the empty-content group*, so the
constructed collection does contain an empty gene set (named `a|b`). -/
theorem C2_counterexample :
    ((GeneSets.init [(GeneSet.init "a" [] none false none).1,
        (GeneSet.init "b" [] none false none).1,
        (GeneSet.init "p" ["g"] none true none).1,
        (GeneSet.init "q" ["g"] none true none).1]
      "" false true none (some "|") 10).1.gene_sets.any (fun gs => gs.genes == ∅)) = true := by
  decide

theorem emptyHandlingWarnings_not_redundancy {l : List GeneSet} {re : Bool} {w : Warning}
    (hw : w ∈ emptyHandlingWarnings l re) :
    isRedundantVerbatim w = false ∧ isRedundantSummary w = false := by
  unfold emptyHandlingWarnings at hw
  split at hw
  · split at hw
    · rw [List.mem_singleton.mp hw]
      exact ⟨rfl, rfl⟩
    · rw [List.mem_singleton.mp hw]
      exact ⟨rfl, rfl⟩
  · exact absurd hw (List.not_mem_nil w)

/-- C3 (amended). When redundancy exists with at least one redundant group of
non-empty gene content (`any(redundant)` tests the truthiness of the dict's
frozenset keys, so redundancy only among empty sets triggers nothing) and
neither `allow_redundant` nor `collapse_redundant` is set, the constructor
warns; the warning lists the redundant groups verbatim (name lists with their
gene counts) if and only if the *total number of gene sets belonging to
redundant groups* is at most 3 (not the number of redundant groups), and
otherwise summarizes by counts only. -/
theorem C3_redundancy_warning_amended (input : List GeneSet) (n : String) (re : Bool)
    (p : Option String) (lim : Nat) (hany : anyRedundant input = true)
    (res : GeneSetsData) (ws : List Warning)
    (heq : GeneSets.init input n false re p none lim = (res, ws)) :
    (affectedCount input ≤ 3 →
      Warning.redundantVerbatim ((findRedundant input).map (fun q => (q.2, q.1.card))) ∈ ws ∧
      ∀ w ∈ ws, isRedundantSummary w = false) ∧
    (3 < affectedCount input →
      Warning.redundantSummary (findRedundant input).length (affectedCount input) ∈ ws ∧
      ∀ w ∈ ws, isRedundantVerbatim w = false) := by
  have hws : ws = redundancyWarnings input false none ++ emptyHandlingWarnings input re := by
    have h2 : ws = (GeneSets.init input n false re p none lim).2 :=
      (congrArg Prod.snd heq).symm
    rw [h2, GeneSets.init_warnings]
    rw [if_neg (by simp [truthyStr]), List.append_nil]
  have hguard : (¬ (false : Bool) = true ∧ anyRedundant input = true ∧
      truthyStr none = false) := ⟨by simp, hany, rfl⟩
  constructor
  · intro hle
    have hred_w : redundancyWarnings input false none =
        [Warning.redundantVerbatim ((findRedundant input).map (fun q => (q.2, q.1.card)))] := by
      unfold redundancyWarnings
      rw [if_pos hguard, if_neg (not_lt.mpr hle)]
    constructor
    · rw [hws, hred_w]
      exact List.mem_append_left _ (List.mem_singleton.mpr rfl)
    · intro w hw
      rw [hws, hred_w] at hw
      rcases List.mem_append.mp hw with hw | hw
      · rw [List.mem_singleton.mp hw]; rfl
      · exact (emptyHandlingWarnings_not_redundancy hw).2
  · intro hlt
    have hred_w : redundancyWarnings input false none =
        [Warning.redundantSummary (findRedundant input).length (affectedCount input)] := by
      unfold redundancyWarnings
      rw [if_pos hguard, if_pos hlt]
    constructor
    · rw [hws, hred_w]
      exact List.mem_append_left _ (List.mem_singleton.mpr rfl)
    · intro w hw
      rw [hws, hred_w] at hw
      rcases List.mem_append.mp hw with hw | hw
      · rw [List.mem_singleton.mp hw]; rfl
      · exact (emptyHandlingWarnings_not_redundancy hw).1

/-- C3 witness. One redundant group of two sets (2 affected sets, ≤ 3):
the verbatim warning listing both names with the gene count is emitted, and no
summary warning; also a ten-set redundant input (20 affected) gets the
summary. -/
theorem C3_witness :
    (affectedCount [(GeneSet.init "p" ["g1", "g2"] none true none).1,
        (GeneSet.init "q" ["g1", "g2"] none true none).1] ≤ 3 →
      Warning.redundantVerbatim
        ((findRedundant [(GeneSet.init "p" ["g1", "g2"] none true none).1,
          (GeneSet.init "q" ["g1", "g2"] none true none).1]).map
            (fun q => (q.2, q.1.card))) ∈
        (GeneSets.init [(GeneSet.init "p" ["g1", "g2"] none true none).1,
          (GeneSet.init "q" ["g1", "g2"] none true none).1] "" false true none none 10).2 ∧
      ∀ w ∈ (GeneSets.init [(GeneSet.init "p" ["g1", "g2"] none true none).1,
          (GeneSet.init "q" ["g1", "g2"] none true none).1] "" false true none none 10).2,
        isRedundantSummary w = false) ∧
    (3 < affectedCount [(GeneSet.init "p" ["g1", "g2"] none true none).1,
        (GeneSet.init "q" ["g1", "g2"] none true none).1] →
      Warning.redundantSummary
        (findRedundant [(GeneSet.init "p" ["g1", "g2"] none true none).1,
          (GeneSet.init "q" ["g1", "g2"] none true none).1]).length
        (affectedCount [(GeneSet.init "p" ["g1", "g2"] none true none).1,
          (GeneSet.init "q" ["g1", "g2"] none true none).1]) ∈
        (GeneSets.init [(GeneSet.init "p" ["g1", "g2"] none true none).1,
          (GeneSet.init "q" ["g1", "g2"] none true none).1] "" false true none none 10).2 ∧
      ∀ w ∈ (GeneSets.init [(GeneSet.init "p" ["g1", "g2"] none true none).1,
          (GeneSet.init "q" ["g1", "g2"] none true none).1] "" false true none none 10).2,
        isRedundantVerbatim w = false) :=
  C3_redundancy_warning_amended
    [(GeneSet.init "p" ["g1", "g2"] none true none).1,
      (GeneSet.init "q" ["g1", "g2"] none true none).1]
    "" true none 10 (by decide) _ _ rfl

/-- C3 counterexample. Two redundant groups of two sets each: there are
2 ≤ 3 redundant groups, yet the constructor emits the count-only summary
(4 affected sets exceed the actual threshold) and no verbatim listing —
refuting the claim that the verbatim listing appears iff at most 3 *groups*
exist. -/
theorem C3_counterexample :
    (findRedundant [(GeneSet.init "a1" ["g1", "g2"] none true none).1,
      (GeneSet.init "a2" ["g1", "g2"] none true none).1,
      (GeneSet.init "b1" ["h1", "h2"] none true none).1,
      (GeneSet.init "b2" ["h1", "h2"] none true none).1]).length = 2 ∧
    (GeneSets.init [(GeneSet.init "a1" ["g1", "g2"] none true none).1,
      (GeneSet.init "a2" ["g1", "g2"] none true none).1,
      (GeneSet.init "b1" ["h1", "h2"] none true none).1,
      (GeneSet.init "b2" ["h1", "h2"] none true none).1] "" false true none none 10).2 =
      [Warning.redundantSummary 2 4] := by decide

/-- C6 (amended). When `collapse_redundant` is a non-empty separator and at
least one redundant group has non-empty gene content (the real guard: Python's
`any(redundant)` tests the truthiness of the dict's frozenset keys, so
redundancy only among empty sets does not trigger collapsing — see the
counterexample), the resulting collection is exactly: one synthetic set per
redundant group (including any empty-content group) — genes are the group's
shared content, the name joins at most `collapse_limit` of the group's names
with the separator (plus the `'<sep>... <k> more'` suffix when the group
exceeds the limit), the description joins all names untruncated — followed by
the untouched non-redundant sets (those surviving the empty-set step whose
gene content is not a redundant group's). -/
theorem C6_collapse_redundant_groups (input : List GeneSet) (n : String) (ar re : Bool)
    (p : Option String) (sep : String) (lim : Nat) (hsep : sep ≠ "")
    (hany : anyRedundant input = true) (res : GeneSetsData) (ws : List Warning)
    (heq : GeneSets.init input n ar re p (some sep) lim = (res, ws)) :
    res.gene_sets =
      (findRedundant input).map (fun q =>
        (⟨String.intercalate sep (q.2.take lim) ++
            (if lim < q.2.length then
              sep ++ "... " ++ toString (q.2.length - lim) ++ " more" else ""),
          q.1, some (String.intercalate sep q.2), none, none⟩ : GeneSet))
      ++ (emptyHandledSets input re).filter
          (fun gs => ¬ ((findRedundant input).map Prod.fst).any (fun k => k == gs.genes)) := by
  have htr : truthyStr (some sep) = true := by simp [truthyStr, hsep]
  have hres : res = (GeneSets.init input n ar re p (some sep) lim).1 :=
    (congrArg Prod.fst heq).symm
  rw [hres, GeneSets.init_gene_sets_collapse input n ar re p lim htr hany]
  congr 1
  unfold collapsedGeneSets
  rw [List.map_map]
  apply List.map_congr_left
  intro q _
  show (GeneSet.init (collapseName ((some sep).getD "") lim q.2) (sortedOf q.1)
      (some (String.intercalate ((some sep).getD "") q.2)) true none).1 = _
  rw [GeneSet.init_of_nodup _ _ _ _ (sortedOf_nodup q.1)]
  rw [sortedOf_toFinset]
  rfl

/-- C6 witness. Sets `p`, `q` share genes `{g1, g2}`; `r` is distinct.
Collapsing with separator `'|'` and limit 10 yields the synthetic `p|q` set
(description `p|q`) followed by the untouched `r`. -/
theorem C6_witness :
    (GeneSets.init [(GeneSet.init "p" ["g1", "g2"] none true none).1,
        (GeneSet.init "q" ["g1", "g2"] none true none).1,
        (GeneSet.init "r" ["z"] none true none).1]
      "" false true none (some "|") 10).1.gene_sets =
      (findRedundant [(GeneSet.init "p" ["g1", "g2"] none true none).1,
        (GeneSet.init "q" ["g1", "g2"] none true none).1,
        (GeneSet.init "r" ["z"] none true none).1]).map (fun q =>
        (⟨String.intercalate "|" (q.2.take 10) ++
            (if 10 < q.2.length then
              "|" ++ "... " ++ toString (q.2.length - 10) ++ " more" else ""),
          q.1, some (String.intercalate "|" q.2), none, none⟩ : GeneSet))
      ++ (emptyHandledSets [(GeneSet.init "p" ["g1", "g2"] none true none).1,
            (GeneSet.init "q" ["g1", "g2"] none true none).1,
            (GeneSet.init "r" ["z"] none true none).1] true).filter
          (fun gs => ¬ ((findRedundant [(GeneSet.init "p" ["g1", "g2"] none true none).1,
            (GeneSet.init "q" ["g1", "g2"] none true none).1,
            (GeneSet.init "r" ["z"] none true none).1]).map Prod.fst).any
              (fun k => k == gs.genes)) :=
  C6_collapse_redundant_groups
    [(GeneSet.init "p" ["g1", "g2"] none true none).1,
      (GeneSet.init "q" ["g1", "g2"] none true none).1,
      (GeneSet.init "r" ["z"] none true none).1]
    "" false true none "|" 10 (by decide) (by decide) _ _ rfl

/-- C6 counterexample. The claim as stated fails when the only redundancy is
among empty gene sets: `a` and `b` (both with no genes) form a redundant
group, and a non-empty separator is given, yet no synthetic collapsed set is
created — `any(redundant)` is false because the group's frozenset key is
empty, the collapse step is skipped, and (with the default
`remove_empty=True`) the resulting collection is empty rather than holding a
collapsed `a|b` set. -/
theorem C6_counterexample :
    findRedundant [(GeneSet.init "a" [] none false none).1,
      (GeneSet.init "b" [] none false none).1] ≠ [] ∧
    (GeneSets.init [(GeneSet.init "a" [] none false none).1,
      (GeneSet.init "b" [] none false none).1]
      "" false true none (some "|") 10).1.gene_sets = [] := by decide

/-- Evaluation of `subset` on a one-set collection (used by the C4 and C5
witnesses): the single member `{"A"}` intersected with universe `{"A","B"}`
keeps all its genes with representativeness `1/1`. -/
theorem subset_single_example :
    GeneSets.subset ⟨[⟨"s", {"A"}, none, none, none⟩], "", none, [], []⟩ {"A", "B"} 0 =
      some (⟨[⟨"s", {"A"}, none, some (((1 : ℕ) : ℚ) / ((1 : ℕ) : ℚ)), none⟩],
        "", none, [], []⟩, []) := by
  have hinter : ({"A"} : Finset String) ∩ {"A", "B"} = {"A"} := by decide
  have hcard : (({"A"} : Finset String) ∩ {"A", "B"}).card = 1 := by decide
  have hcard1 : ({"A"} : Finset String).card = 1 := by decide
  have hcand : subsetCandidates ⟨[⟨"s", {"A"}, none, none, none⟩], "", none, [], []⟩
      {"A", "B"} 0 = [⟨"s", {"A"}, none, some (((1 : ℕ) : ℚ) / ((1 : ℕ) : ℚ)), none⟩] := by
    unfold subsetCandidates
    simp only [List.filterMap_cons, List.filterMap_nil]
    rw [if_pos (div_nonneg (Nat.cast_nonneg _) (Nat.cast_nonneg _))]
    rw [subsetCandidate_fst]
    rw [hcard, hcard1, hinter]
  unfold GeneSets.subset
  rw [if_neg (by decide)]
  rw [hcand]
  rfl

/-- C4 witness. The concrete `subset` run of `subset_single_example`:
every result member (here the one set, representativeness `1/1`) satisfies
the intersection/representativeness characterization with floor 0. -/
theorem C4_witness :
    ∃ gs ∈ (⟨[⟨"s", {"A"}, none, none, none⟩], "", none, [], []⟩
        : GeneSetsData).gene_sets,
      (⟨"s", {"A"}, none, some (((1 : ℕ) : ℚ) / ((1 : ℕ) : ℚ)), none⟩ : GeneSet).name =
          gs.name ∧
      (⟨"s", {"A"}, none, some (((1 : ℕ) : ℚ) / ((1 : ℕ) : ℚ)), none⟩ : GeneSet).genes =
          gs.genes ∩ {"A", "B"} ∧
      (⟨"s", {"A"}, none, some (((1 : ℕ) : ℚ) / ((1 : ℕ) : ℚ)), none⟩
          : GeneSet).representativeness =
        some (((gs.genes ∩ {"A", "B"}).card : ℚ) / (gs.genes.card : ℚ)) ∧
      (0 : ℚ) ≤ ((gs.genes ∩ {"A", "B"}).card : ℚ) / (gs.genes.card : ℚ) :=
  C4_subset_representativeness ⟨[⟨"s", {"A"}, none, none, none⟩], "", none, [], []⟩
    {"A", "B"} 0 _ [] subset_single_example
    ⟨"s", {"A"}, none, some (((1 : ℕ) : ℚ) / ((1 : ℕ) : ℚ)), none⟩
    (List.mem_cons_self _ _)

/-- C5 witness. For the same run the universe `{"A","B"}` contains
`all_genes = {"A"}`, and the result's `(name, genes)` content equals the
input's. -/
theorem C5_witness :
    contentKeys (⟨[⟨"s", {"A"}, none,
        some (((1 : ℕ) : ℚ) / ((1 : ℕ) : ℚ)), none⟩], "", none, [], []⟩
          : GeneSetsData).gene_sets =
      contentKeys (⟨[⟨"s", {"A"}, none, none, none⟩], "", none, [], []⟩
          : GeneSetsData).gene_sets :=
  C5_subset_superset_identity ⟨[⟨"s", {"A"}, none, none, none⟩], "", none, [], []⟩
    {"A", "B"} (by decide) _ [] subset_single_example

/-- C9 witness. A collection holding one empty gene set (as arises with
`remove_empty=False`): `subset` fails with the division-by-zero error. -/
theorem C9_witness :
    GeneSets.subset ⟨[⟨"e", ∅, none, none, none⟩], "", none, [], []⟩ {"A"} 0 = none :=
  C9_subset_division_by_zero ⟨[⟨"e", ∅, none, none, none⟩], "", none, [], []⟩
    ⟨"e", ∅, none, none, none⟩ (List.mem_cons_self _ _) rfl {"A"} 0

/-! ## Lemmas about the GMT round trip -/

theorem roundtrip_line (gs : GeneSet) (h : 2 ≤ gs.genes.card) :
    GeneSet.fromGmtFields (GeneSet.toGmtFields gs) false =
      some (⟨gs.name, gs.genes.erase (serFirst gs), some (serFirst gs), none, none⟩, []) ∧
    serFirst gs ∈ gs.genes := by
  have hlen : (sortedOf gs.genes).length = gs.genes.card := length_sortedOf _
  cases hs : sortedOf gs.genes with
  | nil => rw [hs] at hlen; simp at hlen; omega
  | cons a rest =>
    cases rest with
    | nil => rw [hs] at hlen; simp at hlen; omega
    | cons b t =>
      have hnd : (a :: b :: t).Nodup := hs ▸ sortedOf_nodup gs.genes
      have htf : (a :: b :: t).toFinset = gs.genes := hs ▸ sortedOf_toFinset gs.genes
      have hfirst : serFirst gs = a := by
        unfold serFirst
        rw [hs]
        rfl
      have hamem : a ∈ gs.genes := by
        rw [← htf]
        simp
      have hanotin : a ∉ (b :: t).toFinset := by
        have := (List.nodup_cons.mp hnd).1
        simpa using this
      have herase : (b :: t).toFinset = gs.genes.erase a := by
        have hins : insert a ((b :: t).toFinset) = gs.genes := by
          rw [← List.toFinset_cons, htf]
        rw [← hins, Finset.erase_insert hanotin]
      constructor
      · show GeneSet.fromGmtFields (gs.name :: sortedOf gs.genes) false = _
        rw [hs]
        show some (GeneSet.init gs.name (b :: t) (some a) false none) = _
        have hfst := GeneSet.init_of_nodup gs.name (some a) false none
          (List.nodup_cons.mp hnd).2
        have hsnd := GeneSet.init_warnings_of_nodup gs.name (some a) none
          (List.nodup_cons.mp hnd).2
        refine congrArg some (Prod.ext ?_ (by simpa using hsnd))
        rw [hfst, hfirst, herase]
      · rw [hfirst]
        exact hamem

theorem parseGmt_toGmt (l : List GeneSet) (h : ∀ gs ∈ l, 2 ≤ gs.genes.card) :
    parseGmtLines (l.map GeneSet.toGmtFields) =
      some (l.map (fun gs =>
        ((⟨gs.name, gs.genes.erase (serFirst gs), some (serFirst gs), none, none⟩ : GeneSet),
          ([] : List Warning)))) := by
  induction l with
  | nil => rfl
  | cons a t ih =>
    rw [List.map_cons]
    unfold parseGmtLines
    rw [(roundtrip_line a (h a (List.mem_cons_self _ _))).1,
      ih (fun gs hgs => h gs (List.mem_cons_of_mem a hgs))]
    rfl

theorem flatten_map_nil {α β : Type} (l : List α) :
    (l.map (fun _ => ([] : List β))).flatten = [] := by
  induction l with
  | nil => rfl
  | cons a t ih => simp [ih]

/-- C1 (amended). Serialization omits the description, but parsing expects
one, so re-parsing a written collection demotes the first serialized gene of
each set to the parsed `description`: for every collection whose members have
at least two genes, the round trip succeeds and yields, per member, the same
name with gene content equal to the original genes *minus the first
serialized gene* — so the description is lost and one gene is lost from the
content as well. (A one-gene member re-parses as an empty set and an empty
member fails to parse.) -/
theorem C1_roundtrip_amended (d : GeneSetsData) (h : ∀ gs ∈ d.gene_sets, 2 ≤ gs.genes.card)
    (n : String) (p : Option String) :
    ∃ res ws, GeneSets.fromGmt (GeneSets.toGmt d) n p = some (res, ws) ∧
      contentKeys res.gene_sets =
        (d.gene_sets.map (fun gs => (gs.name, gs.genes.erase (serFirst gs)))).toFinset ∧
      ∀ gs' ∈ res.gene_sets, ∃ gs ∈ d.gene_sets,
        gs'.name = gs.name ∧ gs'.description = some (serFirst gs) ∧
        gs'.genes = gs.genes.erase (serFirst gs) := by
  set f : GeneSet → GeneSet := fun gs =>
    ⟨gs.name, gs.genes.erase (serFirst gs), some (serFirst gs), none, none⟩ with hf
  set parsed : List (GeneSet × List Warning) :=
    d.gene_sets.map (fun gs => (f gs, ([] : List Warning))) with hparsed
  have hmapfst : parsed.map Prod.fst = d.gene_sets.map f := by
    rw [hparsed, List.map_map]
    rfl
  have hmapsnd : (parsed.map Prod.snd).flatten = [] := by
    rw [hparsed, List.map_map]
    exact flatten_map_nil d.gene_sets
  have hval : GeneSets.fromGmt (GeneSets.toGmt d) n p =
      some ((GeneSets.init (pySetList (d.gene_sets.map f)) n false true p none 10).1,
        [] ++ (GeneSets.init (pySetList (d.gene_sets.map f)) n false true p none 10).2) := by
    unfold GeneSets.fromGmt GeneSets.toGmt
    rw [parseGmt_toGmt d.gene_sets h]
    show some _ = some _
    rw [← hparsed]
    simp only []
    rw [hmapfst, hmapsnd]
  have hne : ∀ c ∈ pySetList (d.gene_sets.map f), c.genes ≠ ∅ := by
    intro c hc hemp
    rcases List.mem_map.mp (mem_of_mem_pySetList hc) with ⟨gs, hgs, rfl⟩
    have hmem := (roundtrip_line gs (h gs hgs)).2
    have hcard := Finset.card_erase_of_mem hmem
    have hzero : (gs.genes.erase (serFirst gs)).card = 0 := Finset.card_eq_zero.mpr hemp
    have := h gs hgs
    omega
  have hsets : (GeneSets.init (pySetList (d.gene_sets.map f)) n false true p none 10).1.gene_sets
      = pySetList (d.gene_sets.map f) :=
    @GeneSets.init_gene_sets_passthrough (pySetList (d.gene_sets.map f)) n false true p none 10
      rfl hne
  refine ⟨_, _, hval, ?_, ?_⟩
  · rw [hsets, contentKeys_pySetList]
    unfold contentKeys
    rw [List.map_map]
    rfl
  · intro gs' hm
    rw [hsets] at hm
    rcases List.mem_map.mp (mem_of_mem_pySetList hm) with ⟨gs, hgs, rfl⟩
    exact ⟨gs, hgs, rfl, rfl, rfl⟩

/-- C1 witness. A one-set collection `x ↦ {A, B}` with two genes: the
round trip succeeds and the re-parsed content per name is `{A, B}` minus the
first serialized gene (which becomes the description). -/
theorem C1_witness :
    ∃ res ws, GeneSets.fromGmt
        (GeneSets.toGmt ⟨[⟨"x", {"A", "B"}, none, none, none⟩], "", none, [], []⟩) "" none =
        some (res, ws) ∧
      contentKeys res.gene_sets =
        ([(⟨"x", {"A", "B"}, none, none, none⟩ : GeneSet)].map
          (fun gs => (gs.name, gs.genes.erase (serFirst gs)))).toFinset ∧
      ∀ gs' ∈ res.gene_sets,
        ∃ gs ∈ [(⟨"x", {"A", "B"}, none, none, none⟩ : GeneSet)],
          gs'.name = gs.name ∧ gs'.description = some (serFirst gs) ∧
          gs'.genes = gs.genes.erase (serFirst gs) :=
  C1_roundtrip_amended ⟨[⟨"x", {"A", "B"}, none, none, none⟩], "", none, [], []⟩
    (by decide) "" none

/-- C1 counterexample. For the collection `x ↦ {A, B}`, writing and
re-parsing does *not* preserve the gene content per name: the re-parsed
collection's `(name, genes)` content differs from the original's (the gene
serialized first is consumed as the description). -/
theorem C1_counterexample :
    (GeneSets.fromGmt
        (GeneSets.toGmt ⟨[⟨"x", {"A", "B"}, none, none, none⟩], "", none, [], []⟩) "" none).map
      (fun r => contentKeys r.1.gene_sets) ≠
    some (contentKeys (⟨[⟨"x", {"A", "B"}, none, none, none⟩], "", none, [], []⟩
      : GeneSetsData).gene_sets) := by decide
